import Mathlib

/-!
# jobSearchTracker.js: a verification development

A shallow embedding of `src/jobSearchTracker.js`, a command-line tracker of job
applications, and theorems about it.

The program is sequential glue around four external collaborators: the
interactive prompt (`inquirer`), the HTTP client (`axios`), a text-completion
service (`openai`) and the embedded store (`sqlite3`). The collaborators are
modelled as follows.

* What the user types and what the network answers is data of an `Env`.
* Every call the program makes to a collaborator, and every line it prints, is
  an `Event`; each function returns the events it produced, in order.
* The store is a value of type `Db`: the `jobs` table (declared columns, rows,
  the AUTOINCREMENT counter) and an open flag. Each SQL text of the source is
  written as a `Stmt`, and `Db.run` gives it SQLite's meaning.
* The callbacks handed to `db.run`, `db.each` and `db.close` are modelled as
  running when the statement is issued: the program is single threaded and
  sqlite3 executes the statements of one connection in the order issued.
-/

namespace JobSearchTracker

/-! ## JavaScript values and strings -/

/-- The JavaScript values that flow through the program's job fields. -/
inductive JsVal where
  | undefined
  | str (s : String)
  deriving DecidableEq, Repr

/-- JavaScript truthiness: `undefined` and the empty string are falsy. -/
def JsVal.truthy : JsVal → Bool
  | .undefined => false
  | .str s => !(s.data.isEmpty)

/-- The JavaScript `a || b`. -/
def JsVal.orElse (a b : JsVal) : JsVal :=
  if a.truthy then a else b

/-- White space and line terminators, the characters `String.prototype.trim`
strips. -/
def isJsSpace (c : Char) : Bool :=
  let n := c.toNat
  n == 0x09 || n == 0x0A || n == 0x0B || n == 0x0C || n == 0x0D || n == 0x20 ||
  n == 0xA0 || n == 0x1680 || (0x2000 ≤ n && n ≤ 0x200A) || n == 0x2028 ||
  n == 0x2029 || n == 0x202F || n == 0x205F || n == 0x3000 || n == 0xFEFF

/-- The function `String.prototype.trim`, on the characters of the string. -/
def trimChars (cs : List Char) : List Char :=
  ((cs.dropWhile isJsSpace).reverse.dropWhile isJsSpace).reverse

/-- The function `split('\n')`, on the characters of the string. The empty
string splits into one empty piece. -/
def splitNewline : List Char → List (List Char)
  | [] => [[]]
  | c :: cs =>
    if c = '\n' then [] :: splitNewline cs
    else
      match splitNewline cs with
      | [] => [[c]]
      | l :: ls => (c :: l) :: ls

/-- Array indexing `xs[i]`: `undefined` past the end. -/
def arrayGet (xs : List String) (i : Nat) : JsVal :=
  match xs[i]? with
  | some s => .str s
  | none => .undefined

/-- Positional argument `i` of a call: a parameter the caller did not supply is
`undefined`. -/
def arg (args : List JsVal) (i : Nat) : JsVal :=
  args.getD i .undefined

/-- A line is blank when it consists of white space only (the empty line
included). -/
def isBlank (s : String) : Bool :=
  s.data.all isJsSpace

/-! ## The field extractor -/

/-- A thrown JavaScript error. -/
structure JsError where
  message : String
  deriving DecidableEq, Repr

/-- One element of `response.choices`. -/
structure Choice where
  text : String
  deriving DecidableEq, Repr

/-- The object `openai.createCompletion` resolves to. -/
structure CompletionResponse where
  choices : List Choice
  deriving DecidableEq, Repr

/-- The object `extractJobInfoFromIndeed` returns. It has no `url` property. -/
structure ExtractedInfo where
  jobTitle : JsVal
  company : JsVal
  location : JsVal
  datePosted : JsVal
  status : JsVal
  deriving DecidableEq, Repr

/-- The property `extractedInfo.url`: the object has no such property. -/
def ExtractedInfo.url (_ : ExtractedInfo) : JsVal := .undefined

/-- The prompt text sent to the completion service. -/
def completionPrompt (htmlContent : String) : String :=
  "Extract the following job information from this Indeed job listing:\n\n" ++
    htmlContent ++ "\n\nJob Title: \nCompany: \nLocation: \nDate Posted: \nStatus: "

/-- The value of `response.choices[0].text.trim().split('\n')`. -/
def extractedLines (text : String) : List String :=
  (splitNewline (trimChars text.data)).map String.mk

/-- Lines 21-30 of the source: the object built from the completion text. -/
def extractFromText (text : String) : ExtractedInfo :=
  let lines := extractedLines text
  { jobTitle := arrayGet lines 0
    company := arrayGet lines 1
    location := arrayGet lines 2
    datePosted := arrayGet lines 3
    status := (arrayGet lines 4).orElse (.str "Applied") }

/-- The function `extractJobInfoFromIndeed`: `createCompletion` stands for the
completion service, which resolves to a response or throws. Reading `.text` of
`response.choices[0]` throws a `TypeError` when there is no first choice.
Nothing here catches an error. -/
def extractJobInfoFromIndeed (createCompletion : String → Except JsError CompletionResponse)
    (htmlContent : String) : Except JsError ExtractedInfo :=
  match createCompletion (completionPrompt htmlContent) with
  | .error e => .error e
  | .ok response =>
    match response.choices with
    | [] => .error ⟨"TypeError: Cannot read properties of undefined (reading text)"⟩
    | choice :: _ => .ok (extractFromText choice.text)

/-! ## The record store -/

/-- A value held in a column of the `jobs` table. -/
inductive SqlVal where
  | null
  | text (s : String)
  deriving DecidableEq, Repr

/-- Binding a JavaScript value to a `?` placeholder: sqlite3 leaves the
placeholder of an `undefined` unbound, which SQLite reads as NULL. -/
def bindParam : JsVal → SqlVal
  | .undefined => .null
  | .str s => .text s

/-- A row of the `jobs` table: its integer primary key and the value of each
column by name (NULL for a name that is no column). -/
structure Row where
  id : Nat
  cells : String → SqlVal

/-- The row with column `column` set to `value`. -/
def Row.setCell (r : Row) (column : String) (value : SqlVal) : Row :=
  { r with cells := fun c => if c = column then value else r.cells c }

/-- The `jobs` table: the columns declared besides `id`, the rows in rowid
order, and `seq`, the largest id AUTOINCREMENT has handed out so far. -/
structure Table where
  columns : List String
  rows : List Row
  seq : Nat

/-- What a `SELECT` hands to the row callback: the id and the selected columns. -/
structure Record where
  id : Nat
  fields : List (String × SqlVal)
  deriving DecidableEq, Repr

/-- The SQL statements of the source, each with the parameters bound to it. -/
inductive Stmt where
  /-- The statement `CREATE TABLE IF NOT EXISTS jobs (id INTEGER PRIMARY KEY
  AUTOINCREMENT, c TEXT, ...)` for the listed columns `c`. -/
  | createTableIfNotExists (columns : List String)
  /-- The statement `INSERT INTO jobs (columns) VALUES (?, ...)`. -/
  | insertInto (columns : List String) (values : List JsVal)
  /-- The statement `UPDATE jobs SET column = ? WHERE id = ?`. -/
  | updateSetWhereId (column : String) (value : JsVal) (id : Nat)
  /-- The statement `DELETE FROM jobs WHERE id = ?`. -/
  | deleteWhereId (id : Nat)
  deriving DecidableEq, Repr

/-- The store connection: the `jobs` table of the database file, if it has one,
and whether the connection is open. -/
structure Db where
  jobs : Option Table
  isOpen : Bool

/-- The `this` of a `db.run` callback after a successful statement. -/
structure RunInfo where
  lastID : Nat
  changes : Nat
  deriving DecidableEq, Repr

/-- The largest rowid SQLite can assign. -/
def maxRowid : Nat := 2 ^ 63 - 1

/-- The largest id ever used in the table: AUTOINCREMENT assigns one more. -/
def Table.largestId (t : Table) : Nat :=
  (t.rows.map Row.id).foldl max t.seq

/-- The value an `INSERT` stores in column `c`: the parameter bound at the
position of `c` in the statement's column list, NULL for a column not listed. -/
def insertedCell (columns : List String) (values : List JsVal) (c : String) : SqlVal :=
  match (columns.zip values).lookup c with
  | some v => bindParam v
  | none => .null

/-- SQLite's execution of one statement issued through `db.run`: the table
after it, and the error message or the `lastID` and `changes` the callback
sees. A statement that fails changes nothing. -/
def Db.run (db : Db) (stmt : Stmt) : Db × Except String RunInfo :=
  if db.isOpen = false then (db, .error "SQLITE_MISUSE: Database is closed")
  else
    match stmt, db.jobs with
    | .createTableIfNotExists columns, none =>
      ({ db with jobs := some { columns := columns, rows := [], seq := 0 } },
        .ok { lastID := 0, changes := 0 })
    | .createTableIfNotExists _, some _ => (db, .ok { lastID := 0, changes := 0 })
    | _, none => (db, .error "SQLITE_ERROR: no such table: jobs")
    | .insertInto columns values, some t =>
      match columns.find? (fun c => !(t.columns.contains c)) with
      | some c => (db, .error ("SQLITE_ERROR: table jobs has no column named " ++ c))
      | none =>
        if maxRowid ≤ t.largestId then (db, .error "SQLITE_FULL: database or disk is full")
        else
          let id := t.largestId + 1
          let row : Row := { id := id, cells := insertedCell columns values }
          ({ db with jobs := some { t with rows := t.rows ++ [row], seq := id } },
            .ok { lastID := id, changes := 1 })
    | .updateSetWhereId column value id, some t =>
      if t.columns.contains column = false then
        (db, .error ("SQLITE_ERROR: no such column: " ++ column))
      else
        let rows := t.rows.map fun r =>
          if r.id = id then r.setCell column (bindParam value) else r
        ({ db with jobs := some { t with rows := rows } },
          .ok { lastID := 0, changes := (t.rows.filter fun r => r.id = id).length })
    | .deleteWhereId id, some t =>
      ({ db with jobs := some { t with rows := t.rows.filter fun r => r.id ≠ id } },
        .ok { lastID := 0, changes := (t.rows.filter fun r => r.id = id).length })

/-- SQLite's execution of the query `SELECT id, columns FROM jobs` issued
through `db.each`: the error message, or the records handed to the row callback
one by one, in rowid order. -/
def Db.each (db : Db) (columns : List String) : Except String (List Record) :=
  if db.isOpen = false then .error "SQLITE_MISUSE: Database is closed"
  else
    match db.jobs with
    | none => .error "SQLITE_ERROR: no such table: jobs"
    | some t =>
      match columns.find? (fun c => !(t.columns.contains c)) with
      | some c => .error ("SQLITE_ERROR: no such column: " ++ c)
      | none =>
        .ok (t.rows.map fun r => { id := r.id, fields := columns.map fun c => (c, r.cells c) })

/-! ## Events -/

/-- The defaults the confirmation prompt shows, one per question. -/
structure ConfirmDefaults where
  jobTitle : JsVal
  company : JsVal
  location : JsVal
  url : JsVal
  datePosted : JsVal
  status : JsVal
  deriving DecidableEq, Repr

/-- What the program does that is visible from outside, in order. -/
inductive Event where
  /-- The main menu is presented. -/
  | promptMenu
  /-- The question for the listing URL is presented. -/
  | promptJobUrl
  /-- The six confirmation questions are presented with these defaults. -/
  | promptConfirm (defaults : ConfirmDefaults)
  /-- The call `axios.get(url, ...)`. -/
  | httpGet (url : String)
  /-- The call `openai.createCompletion` with this prompt. -/
  | createCompletion (prompt : String)
  /-- The call `db.run` with this statement. -/
  | dbRun (stmt : Stmt)
  /-- The call `db.each` with `SELECT id, columns FROM jobs`. -/
  | dbEach (columns : List String)
  /-- The call `db.close`. -/
  | dbClose
  /-- A line on standard output. -/
  | consoleLog (line : String)
  /-- The call `console.log(row)`; `none` prints `undefined`. -/
  | consoleLogRow (row : Option Record)
  /-- A line on standard error. -/
  | consoleError (line : String)
  deriving DecidableEq, Repr

/-- The event is console output. -/
def Event.isConsole : Event → Bool
  | .consoleLog _ => true
  | .consoleLogRow _ => true
  | .consoleError _ => true
  | _ => false

/-- The event is a call on the store connection. -/
def Event.isStoreCall : Event → Bool
  | .dbRun _ => true
  | .dbEach _ => true
  | .dbClose => true
  | _ => false

/-- The event is the confirmation prompt. -/
def Event.isConfirm : Event → Bool
  | .promptConfirm _ => true
  | _ => false

/-! ## The store operations of the source -/

/-- The columns named by the `INSERT` of `addJob`. -/
def insertColumns : List String :=
  ["title", "company", "location", "url", "date_posted", "status"]

/-- The array `jobData` that `addJob` binds to its `INSERT`, for the arguments
of a call. -/
def jobData (args : List JsVal) : List JsVal :=
  let title := arg args 0
  let company := arg args 1
  let location := arg args 2
  let url := arg args 3
  let date_posted := arg args 4
  let status := arg args 5
  [title, company, location, url, date_posted, status]

/-- The function `addJob(title, company, location, url, date_posted, status)`,
called with the positional arguments `args`. -/
def addJob (args : List JsVal) (db : Db) : Db × List Event :=
  let stmt := Stmt.insertInto insertColumns (jobData args)
  match db.run stmt with
  | (db1, .error message) => (db1, [.dbRun stmt, .consoleError message])
  | (db1, .ok info) =>
    (db1, [.dbRun stmt, .consoleLog ("Inserted job with ID: " ++ toString info.lastID)])

/-- The columns `listJobs` selects besides `id`. -/
def listColumns : List String := ["title", "company", "status"]

/-- The function `listJobs`. The row callback prints the row; on an error it
prints the message and then the absent row. -/
def listJobs (db : Db) : List Event :=
  match db.each listColumns with
  | .error message => [.dbEach listColumns, .consoleError message, .consoleLogRow none]
  | .ok records => .dbEach listColumns :: records.map fun r => .consoleLogRow (some r)

/-- The function `updateJobStatus(id, newStatus)`. After an error the callback
has no `changes` to print. -/
def updateJobStatus (id : Nat) (newStatus : JsVal) (db : Db) : Db × List Event :=
  let stmt := Stmt.updateSetWhereId "status" newStatus id
  match db.run stmt with
  | (db1, .error message) =>
    (db1, [.dbRun stmt, .consoleError message, .consoleLog "Row(s) updated: undefined"])
  | (db1, .ok info) =>
    (db1, [.dbRun stmt, .consoleLog ("Row(s) updated: " ++ toString info.changes)])

/-- The function `deleteJob(id)`. -/
def deleteJob (id : Nat) (db : Db) : Db × List Event :=
  let stmt := Stmt.deleteWhereId id
  match db.run stmt with
  | (db1, .error message) =>
    (db1, [.dbRun stmt, .consoleError message, .consoleLog "Row(s) deleted: undefined"])
  | (db1, .ok info) =>
    (db1, [.dbRun stmt, .consoleLog ("Row(s) deleted: " ++ toString info.changes)])

/-- The columns of the `CREATE TABLE` in `initializeDB`, besides `id`. -/
def createColumns : List String := ["title", "company", "status"]

/-- The function `initializeDB`: `disk` is the `jobs` table the database file
already holds, if any. The connection opens and the table is created when it
does not exist. -/
def initializeDB (disk : Option Table) : Db × List Event :=
  let db : Db := { jobs := disk, isOpen := true }
  let stmt := Stmt.createTableIfNotExists createColumns
  ((db.run stmt).1, [.consoleLog "Connected to the jobSearchTracker database.", .dbRun stmt])

/-- The call `db.close(callback)` of the Exit branch with its callback. -/
def closeDb (db : Db) : Db × List Event :=
  if db.isOpen then
    ({ db with isOpen := false }, [.dbClose, .consoleLog "Closed the database connection."])
  else
    (db, [.dbClose, .consoleError "SQLITE_MISUSE: Database is closed",
      .consoleLog "Closed the database connection."])

/-! ## The add-job flow -/

/-- An object of the fetch error, known by what `JSON.stringify` does on it:
it gives a text, or it throws, as it does with a `TypeError` on a circular
structure such as the request object of the HTTP client of Node. -/
inductive Stringified where
  | text (s : String)
  | throws (e : JsError)
  deriving DecidableEq, Repr

/-- The `response` of a failed request: the status code, the headers and the
body. -/
structure ErrorResponse where
  status : Nat
  headers : Stringified
  data : Stringified
  deriving DecidableEq, Repr

/-- The error `axios.get` rejects with: it may carry the response, the request,
both or neither. -/
structure FetchError where
  response : Option ErrorResponse
  request : Option Stringified
  message : String
  deriving DecidableEq, Repr

/-- The choices of the status question, in order. -/
def statusChoices : List String :=
  ["Applied", "Interview Scheduled", "Offer Received", "Rejected"]

/-- What the user answers to the confirmation prompt: a string for each input
question and one of the listed choices for the status question. -/
structure Answers where
  jobTitle : String
  company : String
  location : String
  url : String
  datePosted : String
  status : Fin statusChoices.length

/-- The object `confirmedInfo` the confirmation prompt resolves to. -/
structure ConfirmedInfo where
  jobTitle : JsVal
  company : JsVal
  location : JsVal
  url : JsVal
  datePosted : JsVal
  status : JsVal
  deriving DecidableEq, Repr

/-- The answers as the object inquirer builds from them. -/
def Answers.toConfirmedInfo (a : Answers) : ConfirmedInfo :=
  { jobTitle := .str a.jobTitle
    company := .str a.company
    location := .str a.location
    url := .str a.url
    datePosted := .str a.datePosted
    status := .str (statusChoices.get a.status) }

/-- The outside world during one add-job flow: the URL the user enters, what
the HTTP GET of a URL gives, what the completion service gives for a prompt,
and what the user answers to the confirmation prompt shown with given
defaults. -/
structure Env where
  jobUrl : String
  get : String → Except FetchError String
  createCompletion : String → Except JsError CompletionResponse
  confirm : ConfirmDefaults → Answers

/-- How a flow ends: it returns, or an error it does not catch leaves it. -/
inductive Outcome where
  | returned
  | threw (e : JsError)
  deriving DecidableEq, Repr

/-- The result of a flow: the store after it, the events in order, and how it
ended. -/
structure FlowResult where
  db : Db
  events : List Event
  outcome : Outcome

/-- The `catch` block of `addJobPrompt`, up to its `return`: the lines it
prints, and whether it reaches the `return` or is left by the error a
`JSON.stringify` throws. The lines before the throwing call are printed. -/
def catchFetchError (error : FetchError) : List Event × Outcome :=
  match error.response with
  | some response =>
    let printed : List Event :=
      [.consoleError "Failed to fetch HTML content.",
        .consoleError ("Status Code: " ++ toString response.status)]
    match response.headers with
    | .throws e => (printed, .threw e)
    | .text headers =>
      match response.data with
      | .throws e => (printed ++ [.consoleError ("Headers: " ++ headers)], .threw e)
      | .text data =>
        (printed ++ [.consoleError ("Headers: " ++ headers), .consoleError ("Data: " ++ data)],
          .returned)
  | none =>
    match error.request with
    | some request =>
      let printed : List Event :=
        [.consoleError "Failed to fetch HTML content.",
          .consoleError "Request was made but no response received."]
      match request with
      | .throws e => (printed, .threw e)
      | .text text => (printed ++ [.consoleError ("Request: " ++ text)], .returned)
    | none =>
      ([.consoleError "Failed to fetch HTML content.",
          .consoleError ("Error " ++ error.message)], .returned)

/-- The arguments of the call to `addJob` at the end of `addJobPrompt`, in the
order the source writes them. -/
def addJobArgs (confirmedInfo : ConfirmedInfo) : List JsVal :=
  [confirmedInfo.jobTitle, confirmedInfo.company, confirmedInfo.location,
    confirmedInfo.datePosted, confirmedInfo.status]

/-- The function `addJobPrompt`. -/
def addJobPrompt (env : Env) (db : Db) : FlowResult :=
  let jobUrl := env.jobUrl
  match env.get jobUrl with
  | .error error =>
    let caught := catchFetchError error
    { db := db
      events := [.promptJobUrl, .httpGet jobUrl] ++ caught.1
      outcome := caught.2 }
  | .ok htmlContent =>
    let fetched : List Event :=
      [.promptJobUrl, .httpGet jobUrl, .createCompletion (completionPrompt htmlContent)]
    match extractJobInfoFromIndeed env.createCompletion htmlContent with
    | .error e => { db := db, events := fetched, outcome := .threw e }
    | .ok extractedInfo =>
      let defaults : ConfirmDefaults :=
        { jobTitle := extractedInfo.jobTitle
          company := extractedInfo.company
          location := extractedInfo.location
          url := extractedInfo.url
          datePosted := extractedInfo.datePosted
          status := extractedInfo.status.orElse (.str "Applied") }
      let confirmedInfo := (env.confirm defaults).toConfirmedInfo
      let added := addJob (addJobArgs confirmedInfo) db
      { db := added.1
        events := fetched ++ [.promptConfirm defaults] ++ added.2
        outcome := .returned }

/-! ## The main menu -/

/-- One answer to the main menu with the outside world of the flow it starts. -/
structure MenuInput where
  action : String
  env : Env

/-- What follows the handler of a selection: `mainMenu()` is called again, the
handler returned without calling it, or the handler was left by an error. -/
inductive Next where
  | again
  | exited
  | rejected (e : JsError)
  deriving DecidableEq, Repr

/-- The result of one pass through the menu. -/
structure StepResult where
  db : Db
  events : List Event
  next : Next

/-- The `.then` handler of `mainMenu` for one answer: the `switch` and what
follows it, up to the call of `mainMenu()`. -/
def menuHandler (input : MenuInput) (db : Db) : StepResult :=
  if input.action = "Add Job" then
    let flow := addJobPrompt input.env db
    match flow.outcome with
    | .returned => { db := flow.db, events := flow.events, next := .again }
    | .threw e => { db := flow.db, events := flow.events, next := .rejected e }
  else if input.action = "List Jobs" then
    { db := db, events := [], next := .again }
  else if input.action = "Update Job Status" then
    { db := db, events := [], next := .again }
  else if input.action = "Delete Job" then
    { db := db, events := [], next := .again }
  else if input.action = "Exit" then
    let closed := closeDb db
    { db := closed.1, events := closed.2, next := .exited }
  else
    { db := db, events := [], next := .again }

/-- The function `mainMenu`, run on the answers the user gives one after the
other: the menu is presented, the handler runs on the answer, and the menu is
presented again unless the handler returned early or was left by an error. With
no answer left the menu stays on the screen. -/
def mainMenu : List MenuInput → Db → Db × List Event
  | [], db => (db, [.promptMenu])
  | input :: rest, db =>
    let step := menuHandler input db
    match step.next with
    | .again =>
      let later := mainMenu rest step.db
      (later.1, .promptMenu :: step.events ++ later.2)
    | _ => (step.db, .promptMenu :: step.events)

/-- The program: `const db = initializeDB(); mainMenu();`. -/
def program (disk : Option Table) (inputs : List MenuInput) : Db × List Event :=
  let started := initializeDB disk
  let run := mainMenu inputs started.1
  (run.1, started.2 ++ run.2)

/-! ## Worked inputs -/

/-- The answers of the specification's example scenario. -/
def exampleAnswers : Answers :=
  { jobTitle := "Engineer"
    company := "Acme"
    location := "Remote"
    url := "http://x"
    datePosted := "2024-01-01"
    status := ⟨0, by decide⟩ }

/-- A world in which the listing is fetched, the completion service answers
with five lines, and the user gives `exampleAnswers`. -/
def exampleEnv : Env :=
  { jobUrl := "http://x"
    get := fun _ => .ok "<html>Engineer at Acme</html>"
    createCompletion := fun _ => .ok { choices := [{ text := "Engineer\nAcme\nRemote\n2024-01-01\nApplied" }] }
    confirm := fun _ => exampleAnswers }

/-- The store right after `initializeDB` on a database file with no table. -/
def freshDb : Db := (initializeDB none).1

/-- An open store whose empty `jobs` table has every column `addJob` names. -/
def fullDb : Db :=
  { jobs := some { columns := insertColumns, rows := [], seq := 0 }, isOpen := true }

/-- The `TypeError` that `JSON.stringify` throws on a circular structure. -/
def circularError : JsError := ⟨"TypeError: Converting circular structure to JSON"⟩

/-- A world in which the listing is answered with HTTP 404: the error carries
the response and the request. -/
def notFoundEnv : Env :=
  { exampleEnv with
    get := fun _ =>
      .error { response := some { status := 404, headers := .text "\x7b\x7d",
                                  data := .text "\"Not Found\"" }
               request := some (.throws circularError)
               message := "Request failed with status code 404" } }

/-- A world in which the connection is refused: the error carries no response
and the request object of the HTTP client, which is circular. -/
def refusedEnv : Env :=
  { exampleEnv with
    get := fun _ =>
      .error { response := none
               request := some (.throws circularError)
               message := "connect ECONNREFUSED 127.0.0.1:80" } }

/-- A world in which the listing is fetched and the completion request throws. -/
def throwingEnv : Env :=
  { exampleEnv with createCompletion := fun _ => .error ⟨"Request failed with status code 401"⟩ }

/-- A completion text of six lines whose fifth line is a single blank. -/
def blankStatusText : String := "Engineer\nAcme\nRemote\n2024-01-01\n \nend"

/-- The event prints a record whose id is `id`. -/
def Event.printsRecordWithId (id : Nat) : Event → Bool
  | .consoleLogRow (some r) => r.id = id
  | _ => false

/-- An open store with two rows, of ids 1 and 2, in the table `initializeDB`
creates. -/
def twoJobsDb : Db :=
  { jobs := some
      { columns := createColumns
        rows :=
          [{ id := 1, cells := insertedCell createColumns [.str "Engineer", .str "Acme", .str "Applied"] },
           { id := 2, cells := insertedCell createColumns [.str "Analyst", .str "Initech", .str "Rejected"] }]
        seq := 2 }
    isOpen := true }

/-- A session: add a job, pick List Jobs, then Exit; one more answer is left
over. -/
def exampleSession : List MenuInput :=
  [⟨"Add Job", exampleEnv⟩, ⟨"List Jobs", exampleEnv⟩, ⟨"Exit", exampleEnv⟩,
    ⟨"Add Job", exampleEnv⟩]

/-! # Theorems -/

/-! ## The call to addJob (C1, C2) -/

/-- C1: for every set of answers to the confirmation prompt, the parameter list
`addJob` binds to its INSERT when `addJobPrompt` calls it is the confirmed
title, company, location, datePosted, status and `undefined`, in that order: the
call passes five arguments for six parameters, so the `url` column receives the
confirmed datePosted, `date_posted` the confirmed status, and `status` nothing.
It is never the list the columns call for. In the example scenario the flow
issues the INSERT with that shifted list, and on the table `initializeDB`
creates the statement fails. -/
theorem addJobPrompt_binds_shifted_parameters (a : Answers) :
    jobData (addJobArgs a.toConfirmedInfo) =
        [.str a.jobTitle, .str a.company, .str a.location, .str a.datePosted,
          .str (statusChoices.get a.status), .undefined] ∧
      jobData (addJobArgs a.toConfirmedInfo) ≠
        [.str a.jobTitle, .str a.company, .str a.location, .str a.url, .str a.datePosted,
          .str (statusChoices.get a.status)] ∧
      (addJobPrompt exampleEnv freshDb).events.getLast? =
          some (.consoleError "SQLITE_ERROR: table jobs has no column named location") ∧
        .dbRun (.insertInto insertColumns
            [.str "Engineer", .str "Acme", .str "Remote", .str "2024-01-01", .str "Applied",
              .undefined]) ∈ (addJobPrompt exampleEnv freshDb).events := by
  refine ⟨rfl, ?_, by decide, by decide⟩
  intro h
  simp [jobData, addJobArgs, arg, Answers.toConfirmedInfo] at h

/-- C2: in the example scenario the status `addJobPrompt` hands to `addJob` is
`undefined`, none of the four enumerated strings; on an empty table that has
every column the INSERT names, the row the flow adds holds the confirmed status
in `date_posted` and NULL in `status`. -/
theorem addJobPrompt_persists_no_status :
    arg (addJobArgs exampleAnswers.toConfirmedInfo) 5 = .undefined ∧
      (∀ s ∈ statusChoices, arg (addJobArgs exampleAnswers.toConfirmedInfo) 5 ≠ .str s) ∧
      (addJobPrompt exampleEnv fullDb).db.each ["date_posted", "status"] =
        .ok [{ id := 1, fields := [("date_posted", .text "Applied"), ("status", .null)] }] := by
  refine ⟨rfl, ?_, rfl⟩
  intro s _ h
  simp [arg, addJobArgs] at h

/-! ## Insert then list (C3) -/

/-- C3: on the table `initializeDB` creates in a database file that had none,
`addJob` fails for every argument list: its INSERT names the column `location`,
which the CREATE TABLE did not declare. The error is printed, no row is added,
and a following `listJobs` prints no record. -/
theorem addJob_fails_on_created_table (args : List JsVal) :
    (addJob args freshDb).2 =
        [.dbRun (.insertInto insertColumns (jobData args)),
          .consoleError "SQLITE_ERROR: table jobs has no column named location"] ∧
      (addJob args freshDb).1.jobs.map (fun t => t.rows.length) = some 0 ∧
      listJobs (addJob args freshDb).1 = [.dbEach listColumns] := by
  refine ⟨rfl, rfl, rfl⟩

/-! ## Menu dispatch (C4) -/

/-- C4: for the selections List Jobs, Update Job Status and Delete Job the
handler of `mainMenu` calls nothing: it produces no event, leaves the store as
it was and has the menu presented again, whereas `listJobs`, `updateJobStatus`
and `deleteJob` each begin with a call on the store. -/
theorem menuHandler_stubs_call_nothing (env : Env) (db : Db) :
    (∀ action ∈ ["List Jobs", "Update Job Status", "Delete Job"],
        (menuHandler ⟨action, env⟩ db).events = [] ∧
          (menuHandler ⟨action, env⟩ db).db = db ∧
          (menuHandler ⟨action, env⟩ db).next = .again) ∧
      (listJobs db).head? = some (.dbEach listColumns) ∧
      (∀ id s, (updateJobStatus id s db).2.head? =
        some (.dbRun (.updateSetWhereId "status" s id))) ∧
      (∀ id, (deleteJob id db).2.head? = some (.dbRun (.deleteWhereId id))) := by
  refine ⟨?_, ?_, ?_, ?_⟩
  · intro action h
    simp only [List.mem_cons, List.mem_singleton, List.not_mem_nil, or_false] at h
    rcases h with h | h | h <;> subst h <;> refine ⟨rfl, rfl, rfl⟩
  · unfold listJobs
    cases db.each listColumns <;> rfl
  · intro id s
    simp only [updateJobStatus]
    split <;> rfl
  · intro id
    simp only [deleteJob]
    split <;> rfl

/-! ## Failures in the add-job flow (C5, C6) -/

theorem catchFetchError_console (error : FetchError) :
    ∀ e ∈ (catchFetchError error).1, ∃ line, e = .consoleError line := by
  intro e he
  unfold catchFetchError at he
  rcases error with ⟨response, request, message⟩
  cases response with
  | some r =>
    rcases r with ⟨status, headers, data⟩
    cases headers with
    | throws t => simp at he; rcases he with h | h <;> exact ⟨_, h⟩
    | text hs =>
      cases data with
      | throws t => simp at he; rcases he with h | h | h <;> exact ⟨_, h⟩
      | text ds => simp at he; rcases he with h | h | h | h <;> exact ⟨_, h⟩
  | none =>
    cases request with
    | some q =>
      cases q with
      | throws t => simp at he; rcases he with h | h <;> exact ⟨_, h⟩
      | text qs => simp at he; rcases he with h | h | h <;> exact ⟨_, h⟩
    | none => simp at he; rcases he with h | h <;> exact ⟨_, h⟩

/-- C5: for every fetch error the flow makes no completion request (the call
`extractJobInfoFromIndeed` makes), presents no confirmation prompt and makes no
call on the store, which is what it was. It does not always return, though: it
does for the error of an HTTP 404, which carries a response, but for an error
that carries only the request of a refused connection the `catch` block is left
by the `TypeError` that `JSON.stringify(error.request)` throws, after two lines
of the report; the menu handler is left by that error too, and the menu is
presented once, not again, although a further answer is waiting. -/
theorem addJobPrompt_fetch_failure :
    (∀ (env : Env) (db : Db) (error : FetchError), env.get env.jobUrl = .error error →
        (addJobPrompt env db).db = db ∧
          ∀ e ∈ (addJobPrompt env db).events,
            (∀ p, e ≠ .createCompletion p) ∧ e.isConfirm = false ∧ e.isStoreCall = false) ∧
      (addJobPrompt notFoundEnv freshDb).outcome = .returned ∧
      (addJobPrompt refusedEnv freshDb).outcome = .threw circularError ∧
      (addJobPrompt refusedEnv freshDb).events =
        [.promptJobUrl, .httpGet "http://x", .consoleError "Failed to fetch HTML content.",
          .consoleError "Request was made but no response received."] ∧
      (menuHandler ⟨"Add Job", refusedEnv⟩ freshDb).next = .rejected circularError ∧
      (mainMenu [⟨"Add Job", refusedEnv⟩, ⟨"List Jobs", exampleEnv⟩] freshDb).2 =
        .promptMenu :: (addJobPrompt refusedEnv freshDb).events := by
  refine ⟨?_, by decide, by decide, by decide, by decide, by decide⟩
  intro env db error hfetch
  have hrun : addJobPrompt env db =
      { db := db, events := [.promptJobUrl, .httpGet env.jobUrl] ++ (catchFetchError error).1,
        outcome := (catchFetchError error).2 } := by
    simp only [addJobPrompt, hfetch]
  rw [hrun]
  refine ⟨rfl, ?_⟩
  intro e he
  simp only [List.cons_append, List.nil_append, List.mem_cons] at he
  rcases he with h | h | h
  · subst h; exact ⟨fun p hp => (by cases hp), rfl, rfl⟩
  · subst h; exact ⟨fun p hp => (by cases hp), rfl, rfl⟩
  · obtain ⟨line, hl⟩ := catchFetchError_console error e h
    subst hl; exact ⟨fun p hp => (by cases hp), rfl, rfl⟩

/-- C6, as the claim states it, fails: when the completion request throws, the
flow is left by that error and the confirmation prompt is never presented. -/
theorem addJobPrompt_extraction_failure_aborts :
    (addJobPrompt throwingEnv freshDb).outcome =
        .threw ⟨"Request failed with status code 401"⟩ ∧
      (addJobPrompt throwingEnv freshDb).events.any Event.isConfirm = false := by
  decide

/-- C6, amended: if the listing is fetched and the extraction call fails (the
completion request throws or resolves with no choices), the add-job flow
substitutes no defaults and does not reach the confirmation prompt: its events
are the URL prompt, the GET and the completion request and nothing after them,
so `addJob` is not called, and the store is what it was. -/
theorem addJobPrompt_extraction_failure (env : Env) (db : Db) (htmlContent : String)
    (hfetch : env.get env.jobUrl = .ok htmlContent)
    (hfail : (∃ e, env.createCompletion (completionPrompt htmlContent) = .error e) ∨
      env.createCompletion (completionPrompt htmlContent) = .ok { choices := [] }) :
    (addJobPrompt env db).events =
        [.promptJobUrl, .httpGet env.jobUrl, .createCompletion (completionPrompt htmlContent)] ∧
      (∀ e ∈ (addJobPrompt env db).events, e.isConfirm = false ∧ e.isStoreCall = false) ∧
      (addJobPrompt env db).db = db := by
  have hex : ∃ e, extractJobInfoFromIndeed env.createCompletion htmlContent = .error e := by
    rcases hfail with ⟨e, he⟩ | he
    · exact ⟨e, by simp only [extractJobInfoFromIndeed, he]⟩
    · exact ⟨⟨"TypeError: Cannot read properties of undefined (reading text)"⟩,
        by simp only [extractJobInfoFromIndeed, he]⟩
  obtain ⟨e, he⟩ := hex
  have hrun : addJobPrompt env db =
      { db := db
        events := [.promptJobUrl, .httpGet env.jobUrl,
          .createCompletion (completionPrompt htmlContent)]
        outcome := .threw e } := by
    simp only [addJobPrompt, hfetch, he]
  rw [hrun]
  refine ⟨rfl, ?_, rfl⟩
  intro ev hev
  simp only [List.mem_cons, List.mem_singleton, List.not_mem_nil, or_false] at hev
  rcases hev with h | h | h <;> subst h <;> exact ⟨rfl, rfl⟩

theorem addJobPrompt_extraction_failure_witness :
    (addJobPrompt throwingEnv freshDb).events =
        [.promptJobUrl, .httpGet throwingEnv.jobUrl,
          .createCompletion (completionPrompt "<html>Engineer at Acme</html>")] ∧
      (∀ e ∈ (addJobPrompt throwingEnv freshDb).events,
        e.isConfirm = false ∧ e.isStoreCall = false) ∧
      (addJobPrompt throwingEnv freshDb).db = freshDb :=
  addJobPrompt_extraction_failure throwingEnv freshDb "<html>Engineer at Acme</html>" rfl
    (Or.inl ⟨_, rfl⟩)

/-! ## The default status (C9) -/

theorem orElse_applied (v : JsVal) :
    v.orElse (.str "Applied") ≠ .undefined ∧ v.orElse (.str "Applied") ≠ .str "" := by
  cases v with
  | undefined => exact ⟨by decide, by decide⟩
  | str s =>
    unfold JsVal.orElse
    by_cases h : (JsVal.str s).truthy = true
    · rw [if_pos h]
      refine ⟨by simp, ?_⟩
      intro hs
      injection hs with hs
      subst hs
      simp [JsVal.truthy] at h
    · rw [if_neg h]
      exact ⟨by decide, by decide⟩

/-- C9, as the claim states it, fails: a completion text whose fifth line is
blank but not empty gives that blank line as the status, not `Applied`. -/
theorem extract_blank_status_kept :
    (extractedLines blankStatusText)[4]?.map isBlank = some true ∧
      (extractJobInfoFromIndeed (fun _ => .ok { choices := [{ text := blankStatusText }] })
          "").map ExtractedInfo.status = .ok (.str " ") ∧
      JsVal.str " " ≠ .str "Applied" := by
  refine ⟨by decide, rfl, by decide⟩

/-- C9, amended: whenever the completion service resolves with a first choice,
`extractJobInfoFromIndeed` returns; the status it returns is `Applied` when the
trimmed text has fewer than five lines or its fifth line is the empty string,
and it is never `undefined` and never the empty string. -/
theorem extract_status_default (createCompletion : String → Except JsError CompletionResponse)
    (htmlContent text : String) (rest : List Choice)
    (hresp : createCompletion (completionPrompt htmlContent) =
      .ok { choices := { text := text } :: rest }) :
    ∃ info, extractJobInfoFromIndeed createCompletion htmlContent = .ok info ∧
      (((extractedLines text).length < 5 ∨ (extractedLines text)[4]? = some "") →
        info.status = .str "Applied") ∧
      info.status ≠ .undefined ∧ info.status ≠ .str "" := by
  refine ⟨extractFromText text, by simp only [extractJobInfoFromIndeed, hresp], ?_, ?_⟩
  · intro h
    show (arrayGet (extractedLines text) 4).orElse (.str "Applied") = .str "Applied"
    rcases h with h | h
    · have hnone : (extractedLines text)[4]? = none := List.getElem?_eq_none (by omega)
      simp [arrayGet, hnone, JsVal.orElse, JsVal.truthy]
    · simp [arrayGet, h, JsVal.orElse, JsVal.truthy]
  · exact orElse_applied _

theorem extract_status_default_witness :
    ∃ info, extractJobInfoFromIndeed (fun _ => .ok { choices := [{ text := "Engineer\nAcme" }] })
        "" = .ok info ∧
      info.status = .str "Applied" :=
  let ⟨info, hinfo, hdefault, _⟩ := extract_status_default
    (fun _ => .ok { choices := [{ text := "Engineer\nAcme" }] }) "" "Engineer\nAcme" [] rfl
  ⟨info, hinfo, hdefault (Or.inl (by decide))⟩

/-! ## Update and delete (C7, C8) -/

theorem filter_id_eq_nil (rows : List Row) (id : Nat) (hnone : ¬ ∃ r ∈ rows, r.id = id) :
    rows.filter (fun r => decide (r.id = id)) = [] := by
  rw [List.filter_eq_nil_iff]
  intro r hr
  simp only [decide_eq_true_eq]
  exact fun h => hnone ⟨r, hr, h⟩

theorem filter_id_length_one (rows : List Row) (id : Nat)
    (huniq : (rows.map Row.id).Nodup) (hex : ∃ r ∈ rows, r.id = id) :
    (rows.filter (fun r => decide (r.id = id))).length = 1 := by
  induction rows with
  | nil => obtain ⟨r, hr, _⟩ := hex; cases hr
  | cons r rs ih =>
    rw [List.map_cons, List.nodup_cons] at huniq
    by_cases h : r.id = id
    · have hnone : ¬ ∃ q ∈ rs, q.id = id := by
        rintro ⟨q, hq, hqid⟩
        exact huniq.1 (List.mem_map.mpr ⟨q, hq, by rw [hqid, h]⟩)
      rw [List.filter_cons_of_pos (by simpa using h), filter_id_eq_nil rs id hnone]
      rfl
    · rw [List.filter_cons_of_neg (by simpa using h)]
      apply ih huniq.2
      obtain ⟨q, hq, hqid⟩ := hex
      rcases List.mem_cons.mp hq with hq | hq
      · subst hq; exact absurd hqid h
      · exact ⟨q, hq, hqid⟩

theorem filter_ne_id_length (rows : List Row) (id : Nat) :
    (rows.filter (fun r => decide (r.id ≠ id))).length +
      (rows.filter (fun r => decide (r.id = id))).length = rows.length := by
  induction rows with
  | nil => rfl
  | cons r rs ih =>
    by_cases h : r.id = id
    · rw [List.filter_cons_of_neg (by simpa using h), List.filter_cons_of_pos (by simpa using h)]
      simp only [List.length_cons]
      omega
    · rw [List.filter_cons_of_pos (by simpa using h), List.filter_cons_of_neg (by simpa using h)]
      simp only [List.length_cons]
      omega

theorem updateJobStatus_run (db : Db) (t : Table) (id : Nat) (s : JsVal)
    (hopen : db.isOpen = true) (htable : db.jobs = some t) (hcol : "status" ∈ t.columns) :
    updateJobStatus id s db =
      ({ db with jobs := some { t with rows := t.rows.map fun r =>
            if r.id = id then r.setCell "status" (bindParam s) else r } },
        [.dbRun (.updateSetWhereId "status" s id),
          .consoleLog ("Row(s) updated: " ++
            toString (t.rows.filter (fun r => decide (r.id = id))).length)]) := by
  simp [updateJobStatus, Db.run, hopen, htable, hcol]

theorem deleteJob_run (db : Db) (t : Table) (id : Nat)
    (hopen : db.isOpen = true) (htable : db.jobs = some t) :
    deleteJob id db =
      ({ db with jobs := some { t with rows := t.rows.filter fun r => decide (r.id ≠ id) } },
        [.dbRun (.deleteWhereId id),
          .consoleLog ("Row(s) deleted: " ++
            toString (t.rows.filter (fun r => decide (r.id = id))).length)]) := by
  simp [deleteJob, Db.run, hopen, htable]

/-- C7: on an open store whose `jobs` table has a `status` column and unique
ids, `updateJobStatus(id, s)` reports one updated row when a row has that id
and none when no row has it. In the first case the new table has the same
columns and counter, and its rows are the old rows in the same order with the
same ids: the row of that id holds `s` in `status` and its old value in every
other column, and every other row is the same row. In the second case the
store is what it was. -/
theorem updateJobStatus_frame (db : Db) (t : Table) (id : Nat) (s : JsVal)
    (hopen : db.isOpen = true) (htable : db.jobs = some t) (hcol : "status" ∈ t.columns)
    (huniq : (t.rows.map Row.id).Nodup) :
    ((∃ r ∈ t.rows, r.id = id) →
        (updateJobStatus id s db).2 =
            [.dbRun (.updateSetWhereId "status" s id), .consoleLog "Row(s) updated: 1"] ∧
          ∃ rows, (updateJobStatus id s db).1 = { db with jobs := some { t with rows := rows } } ∧
            List.Forall₂
              (fun old new => new.id = old.id ∧
                (old.id = id → new.cells "status" = bindParam s ∧
                  ∀ c, c ≠ "status" → new.cells c = old.cells c) ∧
                (old.id ≠ id → new = old))
              t.rows rows) ∧
      ((¬ ∃ r ∈ t.rows, r.id = id) →
        (updateJobStatus id s db).2 =
            [.dbRun (.updateSetWhereId "status" s id), .consoleLog "Row(s) updated: 0"] ∧
          (updateJobStatus id s db).1 = db) := by
  rw [updateJobStatus_run db t id s hopen htable hcol]
  constructor
  · intro hex
    refine ⟨?_, _, rfl, ?_⟩
    · rw [filter_id_length_one t.rows id huniq hex]; rfl
    · rw [List.forall₂_map_right_iff]
      apply List.forall₂_same.mpr
      intro r _
      by_cases h : r.id = id
      · refine ⟨by simp [h, Row.setCell], fun _ => ⟨by simp [h, Row.setCell], ?_⟩,
          fun hne => absurd h hne⟩
        intro c hc
        simp [h, Row.setCell, hc]
      · simp [h]
  · intro hnone
    refine ⟨?_, ?_⟩
    · rw [filter_id_eq_nil t.rows id hnone]; rfl
    · have hmap : (t.rows.map fun r =>
          if r.id = id then r.setCell "status" (bindParam s) else r) = t.rows := by
        conv_rhs => rw [← List.map_id t.rows]
        apply List.map_congr_left
        intro r hr
        have : r.id ≠ id := fun h => hnone ⟨r, hr, h⟩
        simp [this]
      cases db with
      | mk jobs isOpen =>
        simp only at htable
        subst htable
        simp only [hmap]

theorem updateJobStatus_frame_witness :
    (updateJobStatus 1 (.str "Offer Received") twoJobsDb).2 =
        [.dbRun (.updateSetWhereId "status" (.str "Offer Received") 1),
          .consoleLog "Row(s) updated: 1"] ∧
      ∃ rows, (updateJobStatus 1 (.str "Offer Received") twoJobsDb).1 =
          ({ jobs := some ⟨createColumns, rows, 2⟩, isOpen := true } : Db) ∧
        List.Forall₂
          (fun old new => new.id = old.id ∧
            (old.id = 1 → new.cells "status" = bindParam (.str "Offer Received") ∧
              ∀ c, c ≠ "status" → new.cells c = old.cells c) ∧
            (old.id ≠ 1 → new = old))
          [(⟨1, insertedCell createColumns [.str "Engineer", .str "Acme", .str "Applied"]⟩ : Row),
            ⟨2, insertedCell createColumns [.str "Analyst", .str "Initech", .str "Rejected"]⟩]
          rows :=
  (updateJobStatus_frame twoJobsDb _ 1 (.str "Offer Received") rfl rfl (by decide)
    (by decide)).1 ⟨_, List.mem_cons_self _ _, rfl⟩

/-- C8: on an open store whose `jobs` table has unique ids, `deleteJob(id)`
reports one deleted row when a row has that id, and the new table is the old
one without that row, one row shorter; it reports none when no row has that
id, and the store is what it was. In both cases a following `listJobs` prints
no record with that id and otherwise exactly what it printed before, in the
same order. -/
theorem deleteJob_removes_row (db : Db) (t : Table) (id : Nat)
    (hopen : db.isOpen = true) (htable : db.jobs = some t)
    (huniq : (t.rows.map Row.id).Nodup) :
    ((∃ r ∈ t.rows, r.id = id) →
        (deleteJob id db).2 = [.dbRun (.deleteWhereId id), .consoleLog "Row(s) deleted: 1"] ∧
          (deleteJob id db).1 =
            { db with jobs := some { t with rows := t.rows.filter fun r => decide (r.id ≠ id) } } ∧
          (t.rows.filter fun r => decide (r.id ≠ id)).length + 1 = t.rows.length) ∧
      ((¬ ∃ r ∈ t.rows, r.id = id) →
        (deleteJob id db).2 = [.dbRun (.deleteWhereId id), .consoleLog "Row(s) deleted: 0"] ∧
          (deleteJob id db).1 = db) ∧
      (∀ e ∈ listJobs (deleteJob id db).1, e.printsRecordWithId id = false) ∧
      listJobs (deleteJob id db).1 =
        (listJobs db).filter fun e => !(e.printsRecordWithId id) := by
  have hlen := filter_ne_id_length t.rows id
  have hlist : listJobs (deleteJob id db).1 =
      (listJobs db).filter fun e => !(e.printsRecordWithId id) := by
    rw [deleteJob_run db t id hopen htable]
    simp only [listJobs, Db.each, hopen, htable]
    cases hfind : listColumns.find? (fun c => !(t.columns.contains c)) with
    | some c => simp [Event.printsRecordWithId]
    | none =>
      simp [Event.printsRecordWithId, List.filter_map, Function.comp_def]
  refine ⟨?_, ?_, ?_, hlist⟩
  · intro hex
    rw [deleteJob_run db t id hopen htable]
    have hone := filter_id_length_one t.rows id huniq hex
    refine ⟨?_, rfl, ?_⟩
    · rw [hone]; rfl
    · omega
  · intro hnone
    rw [deleteJob_run db t id hopen htable]
    have hzero := filter_id_eq_nil t.rows id hnone
    refine ⟨?_, ?_⟩
    · rw [hzero]; rfl
    · have hsame : (t.rows.filter fun r => decide (r.id ≠ id)) = t.rows := by
        rw [List.filter_eq_self]
        intro r hr
        simpa using fun h => hnone ⟨r, hr, h⟩
      cases db with
      | mk jobs isOpen =>
        simp only at htable
        subst htable
        simp only [hsame]
  · intro e he
    rw [hlist, List.mem_filter] at he
    simpa using he.2

theorem deleteJob_removes_row_witness :
    (deleteJob 1 twoJobsDb).2 = [.dbRun (.deleteWhereId 1), .consoleLog "Row(s) deleted: 1"] ∧
      listJobs (deleteJob 1 twoJobsDb).1 =
        [.dbEach listColumns,
          .consoleLogRow (some
            { id := 2
              fields := [("title", .text "Analyst"), ("company", .text "Initech"),
                ("status", .text "Rejected")] })] ∧
      listJobs (deleteJob 1 twoJobsDb).1 =
        (listJobs twoJobsDb).filter fun e => !(e.printsRecordWithId 1) :=
  have h := deleteJob_removes_row twoJobsDb _ 1 rfl rfl (by decide)
  ⟨(h.1 ⟨_, List.mem_cons_self _ _, rfl⟩).1, by decide, h.2.2.2⟩

/-! ## The menu loop (C10) -/

theorem Db.run_isOpen (db : Db) (stmt : Stmt) : (db.run stmt).1.isOpen = db.isOpen := by
  unfold Db.run
  split
  · rfl
  · split <;> try rfl
    all_goals split <;> try rfl
    all_goals split <;> rfl

theorem addJob_fst (args : List JsVal) (db : Db) :
    (addJob args db).1 = (db.run (.insertInto insertColumns (jobData args))).1 := by
  simp only [addJob]
  split <;> simp_all

theorem addJob_events (args : List JsVal) (db : Db) :
    ∀ e ∈ (addJob args db).2, e ≠ .dbClose ∧ e ≠ .promptMenu := by
  intro e he
  simp only [addJob] at he
  split at he <;> simp at he <;> rcases he with h | h <;> subst h <;> simp

theorem addJobPrompt_isOpen (env : Env) (db : Db) :
    (addJobPrompt env db).db.isOpen = db.isOpen := by
  simp only [addJobPrompt]
  split
  · rfl
  · split
    · rfl
    · simp only [addJob_fst, Db.run_isOpen]

theorem addJobPrompt_events (env : Env) (db : Db) :
    ∀ e ∈ (addJobPrompt env db).events, e ≠ .dbClose ∧ e ≠ .promptMenu := by
  intro e he
  simp only [addJobPrompt] at he
  split at he
  · simp only [List.cons_append, List.nil_append, List.mem_cons] at he
    rcases he with h | h | h
    · subst h; simp
    · subst h; simp
    · obtain ⟨line, hl⟩ := catchFetchError_console _ e h
      subst hl; simp
  · split at he
    · simp at he
      rcases he with h | h | h <;> subst h <;> simp
    · simp only [List.cons_append, List.nil_append, List.mem_cons, List.mem_append] at he
      rcases he with h | h | h | h | h
      · subst h; simp
      · subst h; simp
      · subst h; simp
      · subst h; simp
      · exact addJob_events _ _ e h

theorem closeDb_events (db : Db) :
    ∃ post, (closeDb db).2 = .dbClose :: post ∧ ∀ e ∈ post, e.isConsole = true := by
  unfold closeDb
  split
  · exact ⟨_, rfl, by simp [Event.isConsole]⟩
  · exact ⟨_, rfl, by simp [Event.isConsole]⟩

theorem menuHandler_addJob (input : MenuInput) (db : Db) (h : input.action = "Add Job") :
    (menuHandler input db).db = (addJobPrompt input.env db).db ∧
      (menuHandler input db).events = (addJobPrompt input.env db).events ∧
      ((addJobPrompt input.env db).outcome = .returned → (menuHandler input db).next = .again) ∧
      ∀ e, (addJobPrompt input.env db).outcome = .threw e →
        (menuHandler input db).next = .rejected e := by
  simp only [menuHandler, if_pos h]
  cases (addJobPrompt input.env db).outcome with
  | returned => simp
  | threw e => simp

theorem menuHandler_exit (input : MenuInput) (db : Db) (h : input.action = "Exit") :
    (menuHandler input db).db = (closeDb db).1 ∧
      (menuHandler input db).events = (closeDb db).2 ∧
      (menuHandler input db).next = .exited := by
  simp [menuHandler, h]

theorem menuHandler_other (input : MenuInput) (db : Db)
    (hadd : input.action ≠ "Add Job") (hexit : input.action ≠ "Exit") :
    (menuHandler input db).db = db ∧ (menuHandler input db).events = [] ∧
      (menuHandler input db).next = .again := by
  simp only [menuHandler, if_neg hadd, if_neg hexit]
  split
  · exact ⟨rfl, rfl, rfl⟩
  · split
    · exact ⟨rfl, rfl, rfl⟩
    · split <;> exact ⟨rfl, rfl, rfl⟩

theorem menuHandler_again (input : MenuInput) (db : Db)
    (hnext : (menuHandler input db).next = .again) :
    (menuHandler input db).db.isOpen = db.isOpen ∧
      ∀ e ∈ (menuHandler input db).events, e ≠ .dbClose ∧ e ≠ .promptMenu := by
  by_cases hadd : input.action = "Add Job"
  · obtain ⟨hdb, hev, _, _⟩ := menuHandler_addJob input db hadd
    rw [hdb, hev]
    exact ⟨addJobPrompt_isOpen _ _, addJobPrompt_events _ _⟩
  · by_cases hexit : input.action = "Exit"
    · rw [(menuHandler_exit input db hexit).2.2] at hnext
      cases hnext
    · obtain ⟨hdb, hev, _⟩ := menuHandler_other input db hadd hexit
      rw [hdb, hev]
      exact ⟨rfl, by simp⟩

theorem menuHandler_not_again (input : MenuInput) (db : Db)
    (hnext : (menuHandler input db).next ≠ .again) :
    (∀ e ∈ (menuHandler input db).events, e ≠ .dbClose ∧ e ≠ .promptMenu) ∨
      ∃ post, (menuHandler input db).events = .dbClose :: post ∧ ∀ e ∈ post, e.isConsole = true := by
  by_cases hadd : input.action = "Add Job"
  · left
    rw [(menuHandler_addJob input db hadd).2.1]
    exact addJobPrompt_events _ _
  · by_cases hexit : input.action = "Exit"
    · right
      rw [(menuHandler_exit input db hexit).2.1]
      exact closeDb_events db
    · exact absurd (menuHandler_other input db hadd hexit).2.2 hnext

theorem isConsole_ne_close (e : Event) (h : e.isConsole = true) :
    e ≠ .dbClose ∧ e ≠ .promptMenu := by
  cases e <;> simp_all [Event.isConsole]

theorem mainMenu_closes_last (inputs : List MenuInput) (db : Db) :
    (∀ e ∈ (mainMenu inputs db).2, e ≠ .dbClose) ∨
      ∃ pre post, (mainMenu inputs db).2 = pre ++ .dbClose :: post ∧
        (∀ e ∈ pre, e ≠ .dbClose) ∧ ∀ e ∈ post, e.isConsole = true := by
  induction inputs generalizing db with
  | nil => left; simp [mainMenu]
  | cons input rest ih =>
    by_cases hnext : (menuHandler input db).next = .again
    · have hstep := (menuHandler_again input db hnext).2
      have hrun : (mainMenu (input :: rest) db).2 =
          (.promptMenu :: (menuHandler input db).events) ++
            (mainMenu rest (menuHandler input db).db).2 := by
        simp [mainMenu, hnext]
      rw [hrun]
      rcases ih (menuHandler input db).db with h | ⟨pre, post, heq, hpre, hpost⟩
      · left
        intro e he
        rcases List.mem_append.mp he with he | he
        · rcases List.mem_cons.mp he with he | he
          · subst he; simp
          · exact (hstep e he).1
        · exact h e he
      · right
        refine ⟨(.promptMenu :: (menuHandler input db).events) ++ pre, post, ?_, ?_, hpost⟩
        · rw [heq, List.append_assoc]
        · intro e he
          rcases List.mem_append.mp he with he | he
          · rcases List.mem_cons.mp he with he | he
            · subst he; simp
            · exact (hstep e he).1
          · exact hpre e he
    · have hrun : (mainMenu (input :: rest) db).2 =
          .promptMenu :: (menuHandler input db).events := by
        simp only [mainMenu]
      rw [hrun]
      rcases menuHandler_not_again input db hnext with h | ⟨post, heq, hpost⟩
      · left
        intro e he
        rcases List.mem_cons.mp he with he | he
        · subst he; simp
        · exact (h e he).1
      · right
        exact ⟨[.promptMenu], post, by rw [heq]; rfl, by simp, hpost⟩

theorem mainMenu_head (inputs : List MenuInput) (db : Db) :
    (mainMenu inputs db).2.head? = some .promptMenu := by
  cases inputs with
  | nil => rfl
  | cons input rest =>
    simp only [mainMenu]
    split <;> rfl

theorem split_at_close (pre post pre0 post0 : List Event)
    (heq : pre ++ Event.dbClose :: post = pre0 ++ Event.dbClose :: post0)
    (hpre0 : ∀ e ∈ pre0, e ≠ Event.dbClose) (hpost0 : ∀ e ∈ post0, e ≠ Event.dbClose) :
    post = post0 := by
  rcases List.append_eq_append_iff.mp heq with ⟨a, rfl, ha⟩ | ⟨c, rfl, hc⟩
  · cases a with
    | nil => simpa using ha
    | cons x xs =>
      simp only [List.cons_append, List.cons.injEq] at ha
      obtain ⟨hx, _⟩ := ha
      subst hx
      exact absurd rfl (hpre0 Event.dbClose (by simp))
  · cases c with
    | nil => simpa using hc.symm
    | cons x xs =>
      simp only [List.cons_append, List.cons.injEq] at hc
      obtain ⟨hx, hxs⟩ := hc
      subst hx
      exact absurd rfl (hpost0 Event.dbClose (by rw [hxs]; simp))

/-- C10: the step relation of the main menu. For a selection other than Exit
whose handler completes (for Add Job: `addJobPrompt` returns, after a success
or after a reported failure), the handler closes nothing, the store is open
exactly if it was, and `mainMenu` is called again, which presents the menu. For
Exit the handler calls `db.close` exactly once, an open store is closed, and the
run ends there: the menu is not presented again. Over any run, from any store,
`db.close` is called at most once, and whatever follows it is the output of its
own callback. -/
theorem mainMenu_step_relation :
    (∀ (input : MenuInput) (db : Db) (rest : List MenuInput), input.action ≠ "Exit" →
        (input.action = "Add Job" → (addJobPrompt input.env db).outcome = .returned) →
        (menuHandler input db).next = .again ∧
          (menuHandler input db).db.isOpen = db.isOpen ∧
          (∀ e ∈ (menuHandler input db).events, e ≠ .dbClose) ∧
          (mainMenu (input :: rest) db).2 =
            .promptMenu :: (menuHandler input db).events ++
              (mainMenu rest (menuHandler input db).db).2 ∧
          (mainMenu rest (menuHandler input db).db).2.head? = some .promptMenu) ∧
      (∀ (input : MenuInput) (db : Db) (rest : List MenuInput), input.action = "Exit" →
        (menuHandler input db).next = .exited ∧
          (menuHandler input db).events.count .dbClose = 1 ∧
          (db.isOpen = true → (menuHandler input db).db.isOpen = false) ∧
          (∀ e ∈ (menuHandler input db).events, e ≠ .promptMenu) ∧
          (mainMenu (input :: rest) db).2 = .promptMenu :: (menuHandler input db).events) ∧
      (∀ (inputs : List MenuInput) (db : Db),
        (mainMenu inputs db).2.count .dbClose ≤ 1 ∧
          ∀ pre post, (mainMenu inputs db).2 = pre ++ .dbClose :: post →
            ∀ e ∈ post, e.isConsole = true) := by
  refine ⟨?_, ?_, ?_⟩
  · intro input db rest hexit hdone
    have hnext : (menuHandler input db).next = .again := by
      by_cases hadd : input.action = "Add Job"
      · exact (menuHandler_addJob input db hadd).2.2.1 (hdone hadd)
      · exact (menuHandler_other input db hadd hexit).2.2
    obtain ⟨hopen, hev⟩ := menuHandler_again input db hnext
    refine ⟨hnext, hopen, fun e he => (hev e he).1, ?_, mainMenu_head _ _⟩
    simp [mainMenu, hnext]
  · intro input db rest hexit
    obtain ⟨hdb, hev, hnext⟩ := menuHandler_exit input db hexit
    obtain ⟨post, hpost, hconsole⟩ := closeDb_events db
    refine ⟨hnext, ?_, ?_, ?_, ?_⟩
    · rw [hev, hpost, List.count_cons_self, List.count_eq_zero.mpr]
      exact fun h => (isConsole_ne_close _ (hconsole _ h)).1 rfl
    · intro hopen
      rw [hdb]
      simp [closeDb, hopen]
    · intro e he
      rw [hev, hpost] at he
      rcases List.mem_cons.mp he with he | he
      · subst he; simp
      · exact (isConsole_ne_close _ (hconsole _ he)).2
    · simp [mainMenu, hnext]
  · intro inputs db
    rcases mainMenu_closes_last inputs db with hnone | ⟨pre0, post0, heq, hpre0, hpost0⟩
    · refine ⟨?_, ?_⟩
      · rw [List.count_eq_zero.mpr (fun h => hnone _ h rfl)]
        exact Nat.zero_le 1
      · intro pre post h
        exact absurd rfl (hnone Event.dbClose (by rw [h]; simp))
    · have hpost0c : ∀ e ∈ post0, e ≠ Event.dbClose :=
        fun e he => (isConsole_ne_close e (hpost0 e he)).1
      refine ⟨?_, ?_⟩
      · rw [heq, List.count_append, List.count_cons_self,
          List.count_eq_zero.mpr (fun h => hpre0 _ h rfl),
          List.count_eq_zero.mpr (fun h => hpost0c _ h rfl)]
      · intro pre post h
        rw [heq] at h
        rw [split_at_close pre post pre0 post0 h.symm hpre0 hpost0c]
        exact hpost0

theorem mainMenu_step_relation_witness :
    (mainMenu exampleSession freshDb).2.count .dbClose ≤ 1 ∧
      (mainMenu exampleSession freshDb).2.getLast? =
        some (.consoleLog "Closed the database connection.") ∧
      (mainMenu exampleSession freshDb).1.isOpen = false :=
  ⟨(mainMenu_step_relation.2.2 exampleSession freshDb).1, by decide, by decide⟩

end JobSearchTracker
